import Mathlib

set_option linter.unusedVariables false

/-!
# Verification of `src/inventory_system.py`

A shallow embedding of the inventory-management module and proofs of the
specification's claims about it.

## Modelling conventions

* Python runtime values that can flow into the public operations are the
  inductive `PyVal`: text, arbitrary-precision integers, booleans, floats
  and `None`.  Python's `bool` is a subclass of `int`, so
  `isinstance(qty, int)` accepts booleans; `PyVal.isInt` reflects that.
* Floats are the inductive `PyFloat`: finite values carried as exact
  rationals, plus explicit NaN and the two infinities with IEEE-754
  comparison and propagation rules (`nan <= 0` and `nan > 0` are both
  false, `inf - inf` is NaN).  Every finite-float literal and arithmetic
  result appearing in a theorem here (small integers and halves) is
  exactly representable in IEEE-754 double precision, where Python's
  `-`/`+` are exact, so the finite carrier agrees with Python on all
  values used here.
* The global `stock_data` dict is an insertion-ordered association list
  `StockTable` with `String` keys (only `str` keys can ever enter it:
  `add_item` type-checks the item and JSON object keys are strings).
  `dget`/`dset`/`ddel` mirror Python dict lookup, assignment (update in
  place, or append for a fresh key) and deletion on unique-key lists.
* An uncaught Python exception is `Except.error ()`; a function that the
  source cannot crash is total.  A `TypeError` raised by arithmetic on
  incompatible operands is the `.error` of `pyAddInt` / `pySub`.
* Calls to `logging.info/warning/error` are recorded as `LogEvent`s with
  their `LogLevel`; the timestamped text itself carries no further state.
* The filesystem for `load_data`/`save_data` is an association list from
  path to `FileContent`: a file whose content is a valid JSON object
  (stored in decoded form, as `json.load` would return it — every `PyVal`
  is JSON-serializable and `json.dump`/`json.load` round-trip such
  objects preserving key order), a file whose content is UTF-8 text that
  is not valid JSON (`json.JSONDecodeError`, caught), or a file whose
  bytes are not decodable as UTF-8 (`UnicodeDecodeError`, uncaught).
  Writes succeed (no `OSError` nondeterminism is modelled).
-/

/-- A Python `float`: an IEEE-754 double.  Finite values are carried as
exact rationals; NaN and the two infinities, which `isinstance(x, float)`
also admits, are explicit constructors.  Every finite-float arithmetic
result appearing in a theorem of this development (small integers and
halves) is exactly representable in double precision, where Python's
`-`/`+` are exact, so the rational carrier agrees with Python on all
values used here; NaN/infinity propagation and comparisons follow
IEEE-754 (`nan <= 0` and `nan > 0` are both false, `inf - inf` is NaN). -/
inductive PyFloat where
  | finite (q : ℚ)
  | inf
  | ninf
  | nan
  deriving DecidableEq, Repr

/-- IEEE-754 `x <= 0` on a float: every comparison with NaN is false. -/
def PyFloat.leZero : PyFloat → Bool
  | .finite q => q ≤ 0
  | .inf => false
  | .ninf => true
  | .nan => false

/-- IEEE-754 `0 < x` on a float: every comparison with NaN is false. -/
def PyFloat.isPos : PyFloat → Bool
  | .finite q => 0 < q
  | .inf => true
  | .ninf => false
  | .nan => false

/-- IEEE-754 `x < t` for an integer `t`. -/
def PyFloat.ltInt (f : PyFloat) (t : Int) : Bool :=
  match f with
  | .finite q => q < (t : ℚ)
  | .inf => false
  | .ninf => true
  | .nan => false

/-- IEEE-754 float subtraction: NaN propagates, `inf - inf` and
`-inf - -inf` are NaN, an infinity dominates any finite operand. -/
def PyFloat.sub : PyFloat → PyFloat → PyFloat
  | .nan, _ => .nan
  | _, .nan => .nan
  | .inf, .inf => .nan
  | .inf, _ => .inf
  | .ninf, .ninf => .nan
  | .ninf, _ => .ninf
  | .finite a, .finite b => .finite (a - b)
  | .finite _, .inf => .ninf
  | .finite _, .ninf => .inf

/-- IEEE-754 `f + n` for an integer `n`: NaN and infinities absorb. -/
def PyFloat.addInt (f : PyFloat) (n : Int) : PyFloat :=
  match f with
  | .finite q => .finite (q + (n : ℚ))
  | .inf => .inf
  | .ninf => .ninf
  | .nan => .nan

/-- A Python runtime value, as far as the inventory module can observe it. -/
inductive PyVal where
  | vstr (s : String)
  | vint (n : Int)
  | vbool (b : Bool)
  | vfloat (f : PyFloat)
  | vnone
  deriving DecidableEq, Repr

/-- `isinstance(v, str)`. -/
def PyVal.isStr : PyVal → Bool
  | .vstr _ => true
  | _ => false

/-- `isinstance(v, int)`.  True for booleans as well: Python's `bool` is a
subclass of `int`. -/
def PyVal.isInt : PyVal → Bool
  | .vint _ => true
  | .vbool _ => true
  | _ => false

/-- `isinstance(v, float)`. -/
def PyVal.isFloat : PyVal → Bool
  | .vfloat _ => true
  | _ => false

/-- The integer a value denotes when `isinstance(v, int)` holds
(`True` counts as 1, `False` as 0), and `none` otherwise. -/
def PyVal.qtyInt : PyVal → Option Int
  | .vint n => some n
  | .vbool b => some (if b then 1 else 0)
  | _ => none

/-- A Python number: the result type of arithmetic in this module.
Ints and bools coerce to `int`; any float operand makes the result a
float. -/
inductive PyNum where
  | int (n : Int)
  | float (f : PyFloat)
  deriving DecidableEq, Repr

/-- The numeric view of a value: ints and bools are `int`s, floats are
floats, text and `None` are not numbers. -/
def PyVal.num? : PyVal → Option PyNum
  | .vint n => some (.int n)
  | .vbool b => some (.int (if b then 1 else 0))
  | .vfloat f => some (.float f)
  | _ => none

/-- Back from a number to a value. -/
def PyNum.toVal : PyNum → PyVal
  | .int n => .vint n
  | .float f => .vfloat f

/-- Python subtraction on numbers: `int - int` is exact (Python ints are
arbitrary precision), any float operand converts the other side to float
(exact for the int magnitudes appearing in this development) and
subtracts by IEEE rules. -/
def PyNum.sub : PyNum → PyNum → PyNum
  | .int a, .int b => .int (a - b)
  | .int a, .float b => .float (PyFloat.sub (.finite (a : ℚ)) b)
  | .float a, .int b => .float (a.sub (.finite (b : ℚ)))
  | .float a, .float b => .float (a.sub b)

/-- `x <= 0` on a number (total: numeric comparison never raises; false
for NaN). -/
def PyNum.leZero : PyNum → Bool
  | .int n => n ≤ 0
  | .float f => f.leZero

/-- `0 < x` on a number (false for NaN). -/
def PyNum.isPos : PyNum → Bool
  | .int n => 0 < n
  | .float f => f.isPos

/-- Python `v - qty` where `v` is an arbitrary stored value and `qty` an
arbitrary argument: a `TypeError` (`Except.error`) unless both operands are
numeric. -/
def pySub (v qty : PyVal) : Except Unit PyNum :=
  match v.num?, qty.num? with
  | some a, some b => .ok (a.sub b)
  | _, _ => .error ()

/-- Python `v + n` for an integer `n` (the type-checked `qty` of
`add_item`): a `TypeError` unless `v` is numeric. -/
def pyAddInt (v : PyVal) (n : Int) : Except Unit PyVal :=
  match v.num? with
  | some (.int m) => .ok (.vint (m + n))
  | some (.float f) => .ok (.vfloat (f.addInt n))
  | none => .error ()

/-- Python `v < t` for an integer threshold `t`: a `TypeError` unless `v`
is numeric. -/
def pyLtInt (v : PyVal) (t : Int) : Except Unit Bool :=
  match v.num? with
  | some (.int n) => .ok (decide (n < t))
  | some (.float f) => .ok (f.ltInt t)
  | none => .error ()

/-- Dict lookup `d.get(key)` on a `str`-keyed dict held as an
insertion-ordered association list. -/
def dget {α : Type} : List (String × α) → String → Option α
  | [], _ => none
  | (k, v) :: rest, key => if k = key then some v else dget rest key

/-- Dict assignment `d[key] = v`: update in place when the key is present,
append a fresh entry otherwise (Python dicts preserve insertion order). -/
def dset {α : Type} : List (String × α) → String → α → List (String × α)
  | [], key, v => [(key, v)]
  | (k, w) :: rest, key, v =>
      if k = key then (key, v) :: rest else (k, w) :: dset rest key v

/-- Dict deletion `del d[key]`. -/
def ddel {α : Type} : List (String × α) → String → List (String × α)
  | [], _ => []
  | (k, v) :: rest, key =>
      if k = key then ddel rest key else (k, v) :: ddel rest key

/-- The global `stock_data` mapping. -/
abbrev StockTable : Type := List (String × PyVal)

/-- Severity of a log record. -/
inductive LogLevel where
  | info
  | warning
  | error
  deriving DecidableEq, Repr

/-- One call to `logging.info/warning/error` in the module, by site. -/
inductive LogEvent where
  /-- `add_item`: "Invalid data types for add_item: item=%s, qty=%s". -/
  | addInvalidTypes (item qty : PyVal)
  /-- `add_item`: "Added %d of %s to inventory.". -/
  | addedInfo (qty item : PyVal)
  /-- `remove_item`: "Removed %s completely from inventory.". -/
  | removedCompletely (item : PyVal)
  /-- `remove_item`: "Removed %d of %s from inventory.". -/
  | removedInfo (qty item : PyVal)
  /-- `remove_item`: "Attempted to remove non-existent item: %s". -/
  | removeNonExistent (item : PyVal)
  /-- `remove_item`: "Error removing item %s: %s". -/
  | removeError (item : PyVal)
  /-- `load_data`: "Inventory data loaded successfully from %s". -/
  | loadSuccess (file : String)
  /-- `load_data`: "File %s not found. Starting with an empty inventory.". -/
  | loadMissing (file : String)
  /-- `load_data`: "Error decoding JSON file %s: %s". -/
  | loadDecodeError (file : String)
  /-- `save_data`: "Inventory data saved successfully to %s". -/
  | saveSuccess (file : String)
  deriving DecidableEq, Repr

/-- The level each log site records at. -/
def LogEvent.level : LogEvent → LogLevel
  | .addInvalidTypes _ _ => .warning
  | .addedInfo _ _ => .info
  | .removedCompletely _ => .info
  | .removedInfo _ _ => .info
  | .removeNonExistent _ => .warning
  | .removeError _ => .error
  | .loadSuccess _ => .info
  | .loadMissing _ => .warning
  | .loadDecodeError _ => .error
  | .saveSuccess _ => .info

/-- `add_item(item, qty)` from `src/inventory_system.py`:

```
if not isinstance(item, str) or not isinstance(qty, int):
    logging.warning(...); return
stock_data[item] = stock_data.get(item, 0) + qty
logging.info(...)
```

The type check is the `(.vstr s, some n)` pattern (`PyVal.qtyInt` is `some`
exactly when `isinstance(qty, int)`).  The addition can raise an uncaught
`TypeError` when the stored value is not numeric; nothing in `add_item`
catches it, hence the `Except`.  The optional `logs` sink only ever
receives a timestamped copy of the same information and touches no other
state, so it is not carried here. -/
def add_item (stock : StockTable) (item qty : PyVal) :
    Except Unit (StockTable × List LogEvent) :=
  match item, qty.qtyInt with
  | .vstr s, some n =>
      match pyAddInt ((dget stock s).getD (.vint 0)) n with
      | .ok v => .ok (dset stock s v, [.addedInfo qty (.vstr s)])
      | .error e => .error e
  | _, _ => .ok (stock, [.addInvalidTypes item qty])

/-- `remove_item(item, qty)` from `src/inventory_system.py`:

```
try:
    if item in stock_data:
        stock_data[item] -= qty
        if stock_data[item] <= 0:
            del stock_data[item]; logging.info("Removed %s completely ...")
        else:
            logging.info("Removed %d of %s ...")
    else:
        logging.warning("Attempted to remove non-existent item: %s", item)
except (KeyError, TypeError) as err:
    logging.error(...)
```

A non-`str` item is never a key of the `str`-keyed dict, so `item in
stock_data` is false for it.  The only statement that can raise is the
subtraction (`TypeError` on non-numeric operands), and it raises before
assigning, so the table is untouched on that path; the `except` clause
catches it.  The function is therefore total. -/
def remove_item (stock : StockTable) (item qty : PyVal) :
    StockTable × List LogEvent :=
  match item with
  | .vstr s =>
      match dget stock s with
      | some v =>
          match pySub v qty with
          | .ok n =>
              let stock1 := dset stock s n.toVal
              if n.leZero then
                (ddel stock1 s, [.removedCompletely (.vstr s)])
              else
                (stock1, [.removedInfo qty (.vstr s)])
          | .error _ => (stock, [.removeError (.vstr s)])
      | none => (stock, [.removeNonExistent (.vstr s)])
  | i => (stock, [.removeNonExistent i])

/-- `get_qty(item)`: `stock_data.get(item)`, i.e. the stored value or the
`None` sentinel (here `Option.none`); never raises.  A non-`str` item is
absent from the `str`-keyed dict. -/
def get_qty (stock : StockTable) (item : PyVal) : Option PyVal :=
  match item with
  | .vstr s => dget stock s
  | _ => none

/-- `check_low_items(threshold)`:
`[item for item, qty in stock_data.items() if qty < threshold]`, iterating
in insertion order; the comparison raises an uncaught `TypeError` at the
first non-numeric stored value. -/
def check_low_items (stock : StockTable) (threshold : Int) :
    Except Unit (List String) :=
  match stock with
  | [] => .ok []
  | (k, v) :: rest => do
      let b ← pyLtInt v threshold
      let tail ← check_low_items rest threshold
      if b then .ok (k :: tail) else .ok tail

/-- Content of a file as `load_data` can observe it. -/
inductive FileContent where
  /-- A file whose bytes are UTF-8 text that is a valid JSON object, held
  in decoded form. -/
  | validJson (entries : List (String × PyVal))
  /-- A file whose bytes are UTF-8 text that is not valid JSON:
  `json.load` raises `json.JSONDecodeError`, which is caught. -/
  | invalidJson
  /-- A file whose bytes are not decodable as UTF-8: reading it inside
  `json.load` raises `UnicodeDecodeError`, which is neither a
  `FileNotFoundError` nor a `json.JSONDecodeError` and so is caught by
  neither `except` clause. -/
  | undecodable
  deriving DecidableEq, Repr

/-- The filesystem: a mapping from path to content. -/
abbrev FileSystem : Type := List (String × FileContent)

/-- `load_data(file)`: open and `json.load`, returning the decoded
mapping; `FileNotFoundError` is caught with a warning and
`JSONDecodeError` with an error, both returning `{}`.  A file whose
bytes are not UTF-8 raises `UnicodeDecodeError`, which neither `except`
clause catches: it propagates to the caller (`Except.error`). -/
def load_data (fs : FileSystem) (file : String) :
    Except Unit (List (String × PyVal) × List LogEvent) :=
  match dget fs file with
  | none => .ok ([], [.loadMissing file])
  | some .invalidJson => .ok ([], [.loadDecodeError file])
  | some (.validJson m) => .ok (m, [.loadSuccess file])
  | some .undecodable => .error ()

/-- `save_data(file)`: `json.dump(stock_data, f, indent=4)`, overwriting
the file with a JSON object that decodes back to the same mapping (every
`PyVal` is JSON-serializable and `json` preserves key order).  The
modelled write succeeds. -/
def save_data (fs : FileSystem) (stock : StockTable) (file : String) :
    FileSystem × List LogEvent :=
  (dset fs file (.validJson stock), [.saveSuccess file])

/-- One public mutation of the stock table. -/
inductive Op where
  | add (item qty : PyVal)
  | remove (item qty : PyVal)
  deriving DecidableEq, Repr

/-- Run one mutation, propagating an uncaught exception from `add_item`. -/
def runOp (stock : StockTable) : Op → Except Unit StockTable
  | .add i q => (add_item stock i q).map (·.1)
  | .remove i q => .ok (remove_item stock i q).1

/-- Run a sequence of mutations left to right. -/
def runOps (stock : StockTable) : List Op → Except Unit StockTable
  | [] => .ok stock
  | op :: rest => do
      let stock1 ← runOp stock op
      runOps stock1 rest

/-- A value that is a strictly positive number. -/
def valPositive (v : PyVal) : Bool :=
  match v.num? with
  | some n => n.isPos
  | none => false

/-- The spec's invariant: every stored value is a strictly positive
quantity. -/
def stockPositive (stock : StockTable) : Bool :=
  stock.all fun p => valPositive p.2

/-- Run `add_item(item, qty_i)` for each quantity in turn. -/
def add_seq (stock : StockTable) (item : String) :
    List Int → Except Unit StockTable
  | [] => .ok stock
  | q :: rest => do
      let r ← add_item stock (.vstr item) (.vint q)
      add_seq r.1 item rest

/-- `item in stock_data`: membership of a value in the `str`-keyed dict. -/
def pyIn (stock : StockTable) (item : PyVal) : Bool :=
  match item with
  | .vstr s => (dget stock s).isSome
  | _ => false

/-- A stock-table operation kept by the amended invariant: an `add` must
either fail `add_item`'s type check (and so be a warned no-op) or carry a
quantity of at least 1, and a `remove` must not carry a float quantity
(integer and boolean quantities subtract exactly, non-numeric quantities
are caught `TypeError` no-ops; a float quantity of `nan` — or `inf`
against a stored `inf` — leaves a NaN, hence non-positive, stored
quantity, see `remove_item_nan_keeps_nan`). -/
def opGood : Op → Bool
  | .add i q =>
      match i, q.qtyInt with
      | .vstr _, some n => decide (1 ≤ n)
      | _, _ => true
  | .remove _ q => !q.isFloat

/-- The spec-side test "the stored value is an integer quantity strictly
below the threshold". -/
def intLtB (v : PyVal) (t : Int) : Bool :=
  match v with
  | .vint n => decide (n < t)
  | _ => false

/-- The value is a plain `int` (not a bool, not a float). -/
def PyVal.isVInt : PyVal → Bool
  | .vint _ => true
  | _ => false

theorem dget_dset_self {α : Type} (t : List (String × α)) (k : String)
    (v : α) : dget (dset t k v) k = some v := by
  induction t with
  | nil => simp [dget, dset]
  | cons p rest ih =>
      obtain ⟨k1, v1⟩ := p
      by_cases h : k1 = k <;> simp [dget, dset, h, ih]

theorem dget_ddel_self {α : Type} (t : List (String × α)) (k : String) :
    dget (ddel t k) k = none := by
  induction t with
  | nil => simp [dget, ddel]
  | cons p rest ih =>
      obtain ⟨k1, v1⟩ := p
      by_cases h : k1 = k <;> simp [dget, ddel, h, ih]

theorem mem_ddel_key_ne {α : Type} (t : List (String × α)) (k : String) :
    ∀ p ∈ ddel t k, p.1 ≠ k := by
  induction t with
  | nil => simp [ddel]
  | cons q rest ih =>
      obtain ⟨k1, v1⟩ := q
      by_cases h : k1 = k
      · simpa [ddel, h] using ih
      · intro p hp
        rcases (by simpa [ddel, h] using hp :
            p = (k1, v1) ∨ p ∈ ddel rest k) with h1 | h1
        · simpa [h1] using h
        · exact ih p h1

theorem ddel_dset {α : Type} (t : List (String × α)) (k : String) (v : α) :
    ddel (dset t k v) k = ddel t k := by
  induction t with
  | nil => simp [dset, ddel]
  | cons p rest ih =>
      obtain ⟨k1, v1⟩ := p
      by_cases h : k1 = k <;> simp [dset, ddel, h, ih]

theorem all_dset {α : Type} (P : String × α → Bool) (t : List (String × α))
    (k : String) (v : α) (ht : t.all P = true) (hv : P (k, v) = true) :
    (dset t k v).all P = true := by
  induction t with
  | nil => simp [dset, hv]
  | cons p rest ih =>
      obtain ⟨k1, v1⟩ := p
      rw [List.all_cons, Bool.and_eq_true] at ht
      by_cases h : k1 = k <;>
        simp [dset, h, ht.1, ht.2, hv, ih ht.2]

theorem all_ddel {α : Type} (P : String × α → Bool) (t : List (String × α))
    (k : String) (ht : t.all P = true) : (ddel t k).all P = true := by
  induction t with
  | nil => simp [ddel]
  | cons p rest ih =>
      obtain ⟨k1, v1⟩ := p
      rw [List.all_cons, Bool.and_eq_true] at ht
      by_cases h : k1 = k <;> simp [ddel, h, ht.1, ih ht.2]

theorem all_dget {α : Type} (P : String × α → Bool) (t : List (String × α))
    (k : String) (v : α) (ht : t.all P = true) (hk : dget t k = some v) :
    P (k, v) = true := by
  induction t with
  | nil => simp [dget] at hk
  | cons p rest ih =>
      obtain ⟨k1, v1⟩ := p
      rw [List.all_cons, Bool.and_eq_true] at ht
      by_cases h : k1 = k
      · rw [dget, if_pos h] at hk
        obtain rfl := (Option.some_inj.mp hk)
        subst h
        exact ht.1
      · rw [dget, if_neg h] at hk
        exact ih ht.2 hk

theorem valPositive_toVal (n : PyNum) : valPositive n.toVal = n.isPos := by
  cases n <;> rfl

/-- Decrementing a strictly positive number by an integer either reaches
`<= 0` or stays strictly positive.  This dichotomy is exactly what fails
for a float decrement: `nan <= 0` and `nan > 0` are both false, which is
why the amended C1 invariant excludes float removal quantities. -/
theorem PyNum.sub_int_isPos (a : PyNum) (k : Int) (ha : a.isPos = true)
    (h : (a.sub (.int k)).leZero = false) :
    (a.sub (.int k)).isPos = true := by
  cases a with
  | int m =>
      simp only [PyNum.sub, PyNum.leZero, decide_eq_false_iff_not] at h
      simp only [PyNum.sub, PyNum.isPos, decide_eq_true_eq]
      omega
  | float f =>
      cases f with
      | finite q =>
          simp only [PyNum.sub, PyFloat.sub, PyNum.leZero, PyFloat.leZero,
            decide_eq_false_iff_not] at h
          simp only [PyNum.sub, PyFloat.sub, PyNum.isPos, PyFloat.isPos,
            decide_eq_true_eq]
          exact lt_of_not_le h
      | inf => rfl
      | ninf => simp [PyNum.isPos, PyFloat.isPos] at ha
      | nan => simp [PyNum.isPos, PyFloat.isPos] at ha

/-- The numeric view of a non-float value is absent or an integer. -/
theorem num_int_of_not_float (q : PyVal) (hq : q.isFloat = false) :
    q.num? = none ∨ ∃ k : Int, q.num? = some (.int k) := by
  cases q with
  | vstr s => exact .inl rfl
  | vnone => exact .inl rfl
  | vint n => exact .inr ⟨n, rfl⟩
  | vbool b => exact .inr ⟨if b then 1 else 0, rfl⟩
  | vfloat f => simp [PyVal.isFloat] at hq

/-- `remove_item` with a non-float quantity preserves strict positivity of
every stored value: an integer decrement that does not reach `<= 0` is
still strictly positive, a non-numeric quantity is a caught `TypeError`
no-op.  (A float quantity can break this: see
`remove_item_nan_keeps_nan`.) -/
theorem remove_item_positive (stock : StockTable) (i q : PyVal)
    (h : stockPositive stock = true) (hq : q.isFloat = false) :
    stockPositive (remove_item stock i q).1 = true := by
  cases i with
  | vstr s =>
      cases hg : dget stock s with
      | none => simpa [remove_item, hg] using h
      | some v =>
          cases hs : pySub v q with
          | error e => simpa [remove_item, hg, hs] using h
          | ok n =>
              have hv : valPositive v = true := by
                simpa using all_dget (fun p => valPositive p.2) stock s v h hg
              obtain ⟨a, hva, hapos⟩ :
                  ∃ a, v.num? = some a ∧ a.isPos = true := by
                revert hv
                unfold valPositive
                cases v.num? with
                | none => intro hv; cases hv
                | some a => intro hv; exact ⟨a, rfl, by simpa using hv⟩
              rcases num_int_of_not_float q hq with hq0 | ⟨k, hqk⟩
              · rw [show pySub v q = .error () by
                  simp [pySub, hva, hq0]] at hs
                cases hs
              · have hsub : pySub v q = .ok (a.sub (.int k)) := by
                  simp [pySub, hva, hqk]
                have hn : a.sub (.int k) = n := by
                  have h2 := hsub.symm.trans hs
                  injection h2
                by_cases hz : n.leZero = true
                · rw [remove_item]
                  simp only [hg, hs, hz, if_pos]
                  rw [ddel_dset]
                  exact all_ddel _ _ _ h
                · rw [remove_item]
                  simp only [hg, hs, hz, if_neg, Bool.not_eq_true]
                  refine all_dset _ _ _ _ h ?_
                  rw [valPositive_toVal, ← hn]
                  exact PyNum.sub_int_isPos a k hapos
                    (by rw [hn]; simpa using hz)
  | vint m => simpa [remove_item] using h
  | vbool b => simpa [remove_item] using h
  | vfloat f2 => simpa [remove_item] using h
  | vnone => simpa [remove_item] using h

/-- The CPython behaviour that bounds the amended C1 invariant: on
`{"a": 7}`, `remove_item("a", float("nan"))` computes `7 - nan = nan`,
`nan <= 0` is false, so the NaN is kept as the stored quantity — and
`nan > 0` is false too, so the stored quantity is not strictly
positive. -/
theorem remove_item_nan_keeps_nan :
    remove_item [("a", PyVal.vint 7)] (.vstr "a") (.vfloat .nan) =
      ([("a", PyVal.vfloat .nan)],
        [.removedInfo (.vfloat .nan) (.vstr "a")]) ∧
    valPositive (PyVal.vfloat .nan) = false :=
  ⟨by rfl, by rfl⟩

theorem pyAddInt_positive (v : PyVal) (n : Int) (hv : valPositive v = true)
    (hn : 1 ≤ n) : ∃ w, pyAddInt v n = .ok w ∧ valPositive w = true := by
  cases v with
  | vint m =>
      refine ⟨.vint (m + n), by simp [pyAddInt, PyVal.num?], ?_⟩
      simp only [valPositive, PyVal.num?, PyNum.isPos, decide_eq_true_eq] at hv ⊢
      omega
  | vbool b =>
      cases b with
      | false => simp [valPositive, PyVal.num?, PyNum.isPos] at hv
      | true =>
          refine ⟨.vint (1 + n), by simp [pyAddInt, PyVal.num?], ?_⟩
          simp only [valPositive, PyVal.num?, PyNum.isPos, decide_eq_true_eq]
          omega
  | vfloat f =>
      cases f with
      | finite q =>
          refine ⟨.vfloat (.finite (q + (n : ℚ))),
            by simp [pyAddInt, PyVal.num?, PyFloat.addInt], ?_⟩
          simp only [valPositive, PyVal.num?, PyNum.isPos, PyFloat.isPos,
            decide_eq_true_eq] at hv ⊢
          have h1 : (1 : ℚ) ≤ (n : ℚ) := by exact_mod_cast hn
          linarith
      | inf =>
          exact ⟨.vfloat .inf,
            by simp [pyAddInt, PyVal.num?, PyFloat.addInt], rfl⟩
      | ninf =>
          simp [valPositive, PyVal.num?, PyNum.isPos, PyFloat.isPos] at hv
      | nan =>
          simp [valPositive, PyVal.num?, PyNum.isPos, PyFloat.isPos] at hv
  | vstr s => simp [valPositive, PyVal.num?] at hv
  | vnone => simp [valPositive, PyVal.num?] at hv

theorem add_item_bad (stock : StockTable) (item qty : PyVal)
    (h : ¬(item.isStr = true ∧ qty.isInt = true)) :
    add_item stock item qty = .ok (stock, [.addInvalidTypes item qty]) := by
  cases item <;> cases qty <;>
    simp_all [add_item, PyVal.isStr, PyVal.isInt, PyVal.qtyInt]

theorem add_item_int_entry (stock : StockTable) (s : String) (m n : Int)
    (hg : dget stock s = some (.vint m)) :
    add_item stock (.vstr s) (.vint n) =
      .ok (dset stock s (.vint (m + n)), [.addedInfo (.vint n) (.vstr s)]) := by
  simp [add_item, PyVal.qtyInt, hg, pyAddInt, PyVal.num?]

theorem add_item_absent (stock : StockTable) (s : String) (n : Int)
    (hg : dget stock s = none) :
    add_item stock (.vstr s) (.vint n) =
      .ok (dset stock s (.vint n), [.addedInfo (.vint n) (.vstr s)]) := by
  simp [add_item, PyVal.qtyInt, hg, pyAddInt, PyVal.num?]

theorem isInt_eq_false_of_qtyInt_none (q : PyVal) (h : q.qtyInt = none) :
    q.isInt = false := by
  cases q <;> simp_all [PyVal.qtyInt, PyVal.isInt]

theorem runOp_positive (stock : StockTable) (op : Op)
    (h : stockPositive stock = true) (hop : opGood op = true) :
    ∃ t', runOp stock op = .ok t' ∧ stockPositive t' = true := by
  cases op with
  | remove i q =>
      have hqf : q.isFloat = false := by simpa [opGood] using hop
      exact ⟨(remove_item stock i q).1, rfl,
        remove_item_positive stock i q h hqf⟩
  | add i q =>
      cases i with
      | vstr s =>
          cases hq : q.qtyInt with
          | none =>
              have hbad : ¬((PyVal.vstr s).isStr = true ∧ q.isInt = true) := by
                simp [isInt_eq_false_of_qtyInt_none q hq]
              exact ⟨stock, by simp [runOp, add_item_bad _ _ _ hbad, Except.map], h⟩
          | some n =>
              have hn : (1 : Int) ≤ n := by simpa [opGood, hq] using hop
              cases hg : dget stock s with
              | none =>
                  refine ⟨dset stock s (.vint (0 + n)), ?_, ?_⟩
                  · simp [runOp, add_item, hq, hg, pyAddInt, PyVal.num?, Except.map]
                  · refine all_dset _ _ _ _ h ?_
                    simp only [valPositive, PyVal.num?, PyNum.isPos,
                      decide_eq_true_eq]
                    omega
              | some v =>
                  have hv : valPositive v = true := by
                    have := all_dget (fun p => valPositive p.2) stock s v h hg
                    simpa using this
                  obtain ⟨w, hw, hwpos⟩ := pyAddInt_positive v n hv hn
                  refine ⟨dset stock s w, ?_, all_dset _ _ _ _ h (by simpa using hwpos)⟩
                  simp [runOp, add_item, hq, hg, hw, Except.map]
      | vint m => exact ⟨stock, by simp [runOp, add_item, Except.map], h⟩
      | vbool b => exact ⟨stock, by simp [runOp, add_item, Except.map], h⟩
      | vfloat q2 => exact ⟨stock, by simp [runOp, add_item, Except.map], h⟩
      | vnone => exact ⟨stock, by simp [runOp, add_item, Except.map], h⟩

theorem runOps_positive (ops : List Op) :
    ∀ stock : StockTable, stockPositive stock = true →
      ops.all opGood = true →
      ∃ t', runOps stock ops = .ok t' ∧ stockPositive t' = true := by
  induction ops with
  | nil => exact fun stock h _ => ⟨stock, rfl, h⟩
  | cons op rest ih =>
      intro stock h hall
      rw [List.all_cons, Bool.and_eq_true] at hall
      obtain ⟨t1, h1, h1pos⟩ := runOp_positive stock op h hall.1
      obtain ⟨t2, h2, h2pos⟩ := ih t1 h1pos hall.2
      refine ⟨t2, ?_, h2pos⟩
      rw [runOps, h1]
      exact h2

theorem add_seq_cumulative (s : String) (qs : List Int) :
    ∀ (stock : StockTable) (m : Int), dget stock s = some (.vint m) →
      ∃ t', add_seq stock s qs = .ok t' ∧
        dget t' s = some (.vint (m + qs.sum)) := by
  induction qs with
  | nil => exact fun stock m h => ⟨stock, rfl, by simpa using h⟩
  | cons q rest ih =>
      intro stock m h
      obtain ⟨t', h1, h2⟩ :=
        ih (dset stock s (.vint (m + q))) (m + q) (dget_dset_self stock s _)
      refine ⟨t', ?_, ?_⟩
      · rw [add_seq, add_item_int_entry stock s m q h]
        exact h1
      · rw [h2]
        congr 2
        simp [add_assoc]

/-- C1, as stated, is false: `add_item` does not reject `qty = 0`, so the
single-operation sequence `add_item("a", 0)` starting from the empty table
reaches the table `{"a": 0}`, whose key `"a"` has quantity `0 ≤ 0`. -/
theorem C1_counterexample :
    runOps [] [Op.add (.vstr "a") (.vint 0)] = .ok [("a", PyVal.vint 0)] ∧
    stockPositive [("a", PyVal.vint 0)] = false :=
  ⟨by rfl, by rfl⟩

/-- C1 (amended): after any sequence of `add_item` and `remove_item`
operations starting from the empty stock table in which every `add_item`
call that passes the type check carries an integer quantity of at least 1
and no `remove_item` call carries a float quantity, every key present in
the stock table has a strictly positive quantity (and no operation
raises).  Both restrictions are forced by counterexamples:
`add_item("a", 0)` leaves quantity 0 (`C1_counterexample`), and
`remove_item("a", float("nan"))` keeps NaN, which is not strictly
positive (`remove_item_nan_keeps_nan`) — the data model's quantities are
integers, and only integer (or boolean) quantities subtract exactly. -/
theorem C1_stock_positive_invariant (ops : List Op)
    (h : ops.all opGood = true) :
    ∃ t', runOps [] ops = .ok t' ∧ stockPositive t' = true :=
  runOps_positive ops [] rfl h

theorem C1_stock_positive_invariant_witness :
    [Op.add (.vstr "a") (.vint 2), Op.remove (.vstr "a") (.vint 1),
      Op.add (.vint 3) .vnone].all opGood = true ∧
    ∃ t', runOps []
        [Op.add (.vstr "a") (.vint 2), Op.remove (.vstr "a") (.vint 1),
          Op.add (.vint 3) .vnone] = .ok t' ∧
      stockPositive t' = true :=
  ⟨by decide, C1_stock_positive_invariant _ (by decide)⟩

/-- C2: for a text item absent from the table, running
`add_item(item, qty_1), ..., add_item(item, qty_n)` (`n ≥ 1`, each `qty_i`
a positive integer) and then `get_qty(item)` returns the cumulative sum
`qty_1 + ... + qty_n`, and no call raises. -/
theorem C2_add_then_get_cumulative (stock : StockTable) (item : String)
    (q0 : Int) (qs : List Int) (habsent : dget stock item = none)
    (hpos : ∀ q ∈ q0 :: qs, 0 < q) :
    ∃ t', add_seq stock item (q0 :: qs) = .ok t' ∧
      get_qty t' (.vstr item) = some (.vint ((q0 :: qs).sum)) := by
  obtain ⟨t', h1, h2⟩ :=
    add_seq_cumulative item qs (dset stock item (.vint q0)) q0
      (dget_dset_self stock item _)
  refine ⟨t', ?_, ?_⟩
  · rw [add_seq, add_item_absent stock item q0 habsent]
    exact h1
  · simp only [get_qty, List.sum_cons, h2]

theorem C2_add_then_get_cumulative_witness :
    dget ([] : StockTable) "apple" = none ∧
    (∀ q ∈ [(10 : Int), 2, 3], 0 < q) ∧
    ∃ t', add_seq [] "apple" [10, 2, 3] = .ok t' ∧
      get_qty t' (.vstr "apple") = some (.vint 15) :=
  ⟨rfl, by decide, by
    simpa using C2_add_then_get_cumulative [] "apple" 10 [2, 3] rfl
      (by decide)⟩

/-- C3: for an item stored with integer quantity `c` and any integer `q`,
`remove_item` deletes the key entirely when `q ≥ c` (so `get_qty` returns
the not-found sentinel and no entry with that key remains), and otherwise
decrements the quantity to `c - q` with the key still present. -/
theorem C3_remove_delete_or_decrement (stock : StockTable) (s : String)
    (c q : Int) (h : dget stock s = some (.vint c)) :
    (c ≤ q →
      get_qty (remove_item stock (.vstr s) (.vint q)).1 (.vstr s) = none ∧
      ∀ p ∈ (remove_item stock (.vstr s) (.vint q)).1, p.1 ≠ s) ∧
    (q < c →
      get_qty (remove_item stock (.vstr s) (.vint q)).1 (.vstr s) =
        some (.vint (c - q))) := by
  have hsub : pySub (.vint c) (.vint q) = .ok (.int (c - q)) := rfl
  constructor
  · intro hle
    have hz : (PyNum.int (c - q)).leZero = true := by
      simp only [PyNum.leZero, decide_eq_true_eq]
      omega
    constructor
    · simp only [remove_item, h, hsub, hz, if_true, get_qty]
      rw [ddel_dset]
      exact dget_ddel_self stock s
    · simp only [remove_item, h, hsub, hz, if_true]
      exact mem_ddel_key_ne _ s
  · intro hlt
    have hz : (PyNum.int (c - q)).leZero = false := by
      simp only [PyNum.leZero, decide_eq_false_iff_not]
      omega
    simp only [remove_item, h, hsub, hz, Bool.false_eq_true, if_false,
      get_qty]
    exact dget_dset_self stock s _

theorem C3_remove_delete_or_decrement_witness :
    dget [("apple", PyVal.vint 5)] "apple" = some (.vint 5) ∧
    ((5 : Int) ≤ 7 →
      get_qty (remove_item [("apple", PyVal.vint 5)] (.vstr "apple")
          (.vint 7)).1 (.vstr "apple") = none ∧
      ∀ p ∈ (remove_item [("apple", PyVal.vint 5)] (.vstr "apple")
          (.vint 7)).1, p.1 ≠ "apple") ∧
    ((7 : Int) < 5 →
      get_qty (remove_item [("apple", PyVal.vint 5)] (.vstr "apple")
          (.vint 7)).1 (.vstr "apple") = some (.vint (5 - 7))) :=
  ⟨by rfl, C3_remove_delete_or_decrement [("apple", PyVal.vint 5)]
    "apple" 5 7 (by rfl)⟩

/-- C4: when the item is not text or the quantity is not an integer,
`add_item` returns without mutating the table, records exactly one
warning and raises nothing. -/
theorem C4_add_item_bad_types_noop (stock : StockTable) (item qty : PyVal)
    (h : ¬(item.isStr = true ∧ qty.isInt = true)) :
    add_item stock item qty = .ok (stock, [.addInvalidTypes item qty]) ∧
    (LogEvent.addInvalidTypes item qty).level = .warning :=
  ⟨add_item_bad stock item qty h, rfl⟩

theorem C4_add_item_bad_types_noop_witness :
    ¬((PyVal.vint 2).isStr = true ∧ (PyVal.vstr "x").isInt = true) ∧
    add_item [("a", PyVal.vint 1)] (.vint 2) (.vstr "x") =
      .ok ([("a", PyVal.vint 1)],
        [.addInvalidTypes (.vint 2) (.vstr "x")]) ∧
    (LogEvent.addInvalidTypes (.vint 2) (.vstr "x")).level = .warning :=
  ⟨by decide, C4_add_item_bad_types_noop [("a", PyVal.vint 1)] (.vint 2)
    (.vstr "x") (by decide)⟩

/-- C5: removing an item that is not a key of the stock table leaves the
table exactly unchanged, records exactly one warning and raises
nothing. -/
theorem C5_remove_item_absent_noop (stock : StockTable) (item qty : PyVal)
    (h : pyIn stock item = false) :
    remove_item stock item qty = (stock, [.removeNonExistent item]) ∧
    (LogEvent.removeNonExistent item).level = .warning := by
  refine ⟨?_, rfl⟩
  cases item with
  | vstr s =>
      cases hg : dget stock s with
      | none => simp [remove_item, hg]
      | some v => simp [pyIn, hg] at h
  | vint n => simp [remove_item]
  | vbool b => simp [remove_item]
  | vfloat q2 => simp [remove_item]
  | vnone => simp [remove_item]

theorem C5_remove_item_absent_noop_witness :
    pyIn [("apple", PyVal.vint 5)] (.vstr "mango") = false ∧
    remove_item [("apple", PyVal.vint 5)] (.vstr "mango") (.vint 1) =
      ([("apple", PyVal.vint 5)], [.removeNonExistent (.vstr "mango")]) ∧
    (LogEvent.removeNonExistent (.vstr "mango")).level = .warning :=
  ⟨by decide, C5_remove_item_absent_noop [("apple", PyVal.vint 5)]
    (.vstr "mango") (.vint 1) (by decide)⟩

theorem exists_int_of_isVInt (v : PyVal) (h : v.isVInt = true) :
    ∃ n : Int, v = .vint n := by
  cases v <;> simp_all [PyVal.isVInt]

theorem all_vint_forall (stock : StockTable)
    (h : stock.all (fun p => p.2.isVInt) = true) :
    ∀ p ∈ stock, ∃ n : Int, p.2 = .vint n := fun p hp =>
  exists_int_of_isVInt p.2 (by simpa using List.all_eq_true.mp h p hp)

theorem except_bind_ok {A B : Type} (a : A) (f : A → Except Unit B) :
    (Except.ok a >>= f) = f a := rfl

theorem check_low_items_int (stock : StockTable) (t : Int)
    (h : ∀ p ∈ stock, ∃ n : Int, p.2 = .vint n) :
    check_low_items stock t =
      .ok ((stock.filter fun p => intLtB p.2 t).map Prod.fst) := by
  induction stock with
  | nil => rfl
  | cons p rest ih =>
      obtain ⟨k, v⟩ := p
      obtain ⟨n, hv⟩ := h (k, v) (List.mem_cons_self _ _)
      subst hv
      have ih2 := ih fun p hp => h p (List.mem_cons_of_mem _ hp)
      by_cases hlt : n < t <;>
        simp [check_low_items, pyLtInt, PyVal.num?, hlt, ih2, intLtB,
          List.filter_cons, except_bind_ok]

/-- C6: on a table of integer quantities, `check_low_items` raises nothing
and returns exactly the items with quantity strictly below the threshold,
in iteration (insertion) order; all items when every quantity is below the
threshold, none when no quantity is. -/
theorem C6_check_low_items (stock : StockTable) (t : Int)
    (hb : stock.all (fun p => p.2.isVInt) = true) :
    check_low_items stock t =
      .ok ((stock.filter fun p => intLtB p.2 t).map Prod.fst) ∧
    ((∀ p ∈ stock, ∀ n : Int, p.2 = .vint n → n < t) →
      check_low_items stock t = .ok (stock.map Prod.fst)) ∧
    ((∀ p ∈ stock, ∀ n : Int, p.2 = .vint n → t ≤ n) →
      check_low_items stock t = .ok []) := by
  have h := all_vint_forall stock hb
  refine ⟨check_low_items_int stock t h, ?_, ?_⟩
  · intro hall
    have hfil : stock.filter (fun p => intLtB p.2 t) = stock := by
      rw [List.filter_eq_self]
      intro p hp
      obtain ⟨n, hn⟩ := h p hp
      simp [intLtB, hn, hall p hp n hn]
    rw [check_low_items_int stock t h, hfil]
  · intro hnone
    have hfil : stock.filter (fun p => intLtB p.2 t) = [] := by
      rw [List.filter_eq_nil_iff]
      intro p hp
      obtain ⟨n, hn⟩ := h p hp
      have := hnone p hp n hn
      simp [intLtB, hn]
      omega
    rw [check_low_items_int stock t h, hfil]
    rfl

theorem C6_check_low_items_witness :
    [("banana", PyVal.vint 2), ("apple", PyVal.vint 7)].all
      (fun p => p.2.isVInt) = true ∧
    check_low_items [("banana", PyVal.vint 2), ("apple", PyVal.vint 7)] 5 =
      .ok ["banana"] :=
  ⟨by decide, by
    simpa [intLtB, List.filter_cons] using
      (C6_check_low_items [("banana", PyVal.vint 2), ("apple", PyVal.vint 7)]
        5 (by decide)).1⟩

/-- C7: saving a stock table of integer quantities and then loading the
same path (with no intervening write) returns a mapping equal to the table
at save time. -/
theorem C7_save_load_roundtrip (fs : FileSystem) (stock : StockTable)
    (path : String) (hb : stock.all (fun p => p.2.isVInt) = true) :
    load_data (save_data fs stock path).1 path =
      .ok (stock, [.loadSuccess path]) := by
  simp [load_data, save_data, dget_dset_self]

theorem C7_save_load_roundtrip_witness :
    [("apple", PyVal.vint 7), ("banana", PyVal.vint 2)].all
      (fun p => p.2.isVInt) = true ∧
    load_data (save_data [("inventory.json", FileContent.invalidJson)]
        [("apple", PyVal.vint 7), ("banana", PyVal.vint 2)]
        "inventory.json").1 "inventory.json" =
      .ok ([("apple", PyVal.vint 7), ("banana", PyVal.vint 2)],
        [.loadSuccess "inventory.json"]) :=
  ⟨by decide, C7_save_load_roundtrip
    [("inventory.json", FileContent.invalidJson)]
    [("apple", PyVal.vint 7), ("banana", PyVal.vint 2)]
    "inventory.json" (by decide)⟩

/-- C8, as stated, is false: "for every path, load_data never raises to
the caller" fails on a file whose bytes are not valid UTF-8 — such
content is certainly not valid JSON, yet reading it inside `json.load`
raises `UnicodeDecodeError`, a `ValueError` sibling that
`except json.JSONDecodeError` does not catch, so it propagates. -/
theorem C8_counterexample :
    load_data [("inventory.json", FileContent.undecodable)]
      "inventory.json" = .error () :=
  by rfl

/-- C8 (amended): on a missing path `load_data` returns the empty mapping
with a warning record and raises nothing, and on a file whose content is
UTF-8 text that is not valid JSON it returns the empty mapping with an
error record and raises nothing; a file whose bytes are not UTF-8 instead
raises an uncaught `UnicodeDecodeError` (`C8_counterexample`). -/
theorem C8_load_data_missing_or_invalid (fs : FileSystem) (path : String) :
    (dget fs path = none →
      load_data fs path = .ok ([], [.loadMissing path]) ∧
      (LogEvent.loadMissing path).level = .warning) ∧
    (dget fs path = some .invalidJson →
      load_data fs path = .ok ([], [.loadDecodeError path]) ∧
      (LogEvent.loadDecodeError path).level = .error) := by
  constructor
  · intro h
    exact ⟨by simp [load_data, h], rfl⟩
  · intro h
    exact ⟨by simp [load_data, h], rfl⟩

theorem C8_load_data_missing_or_invalid_witness :
    (load_data [] "inventory.json" =
        .ok ([], [.loadMissing "inventory.json"]) ∧
      (LogEvent.loadMissing "inventory.json").level = .warning) ∧
    (load_data [("inventory.json", FileContent.invalidJson)]
          "inventory.json" =
        .ok ([], [.loadDecodeError "inventory.json"]) ∧
      (LogEvent.loadDecodeError "inventory.json").level = .error) :=
  ⟨(C8_load_data_missing_or_invalid [] "inventory.json").1 rfl,
    (C8_load_data_missing_or_invalid
      [("inventory.json", FileContent.invalidJson)] "inventory.json").2
      (by decide)⟩

/-- C9, as stated, is false: a float is not an `int` (the declared type of
`qty`), yet `stock_data[item] -= qty` raises nothing for it — Python
coerces the stored int and stores a float.  `remove_item("apple", 2.5)` on
`{"apple": 7}` changes the table to `{"apple": 4.5}` (with an
informational, not an error, record), so the operation is not a no-op. -/
theorem C9_counterexample :
    remove_item [("apple", PyVal.vint 7)] (.vstr "apple")
        (.vfloat (.finite (5 / 2 : ℚ))) =
      ([("apple", PyVal.vfloat (.finite (9 / 2 : ℚ)))],
        [.removedInfo (.vfloat (.finite (5 / 2 : ℚ))) (.vstr "apple")]) ∧
    [("apple", PyVal.vfloat (.finite (9 / 2 : ℚ)))] ≠
      [("apple", PyVal.vint 7)] := by
  constructor
  · simp only [remove_item, dget, dset, ddel, pySub, PyVal.num?,
      PyNum.sub, PyFloat.sub, PyNum.leZero, PyFloat.leZero, PyNum.toVal,
      if_pos, if_neg]
    norm_num
  · simp

/-- C9 (amended): for an item present in the table and a `qty` whose type
makes the decrement raise a `TypeError` (a non-numeric value such as text
or `None`; floats and bools are accepted by the arithmetic instead), the
fault is caught locally, logged as an error, does not propagate, and the
table is exactly unchanged. -/
theorem C9_remove_type_error_noop (stock : StockTable) (s : String)
    (v qty : PyVal) (h1 : dget stock s = some v) (h2 : qty.num? = none) :
    remove_item stock (.vstr s) qty = (stock, [.removeError (.vstr s)]) ∧
    (LogEvent.removeError (.vstr s)).level = .error := by
  refine ⟨?_, rfl⟩
  have hsub : pySub v qty = .error () := by
    cases hv : v.num? <;> simp [pySub, hv, h2]
  simp [remove_item, h1, hsub]

theorem C9_remove_type_error_noop_witness :
    dget [("apple", PyVal.vint 7)] "apple" = some (.vint 7) ∧
    (PyVal.vstr "five").num? = none ∧
    remove_item [("apple", PyVal.vint 7)] (.vstr "apple")
        (.vstr "five") =
      ([("apple", PyVal.vint 7)], [.removeError (.vstr "apple")]) ∧
    (LogEvent.removeError (.vstr "apple")).level = .error :=
  ⟨by rfl, by rfl, by
    have := C9_remove_type_error_noop [("apple", PyVal.vint 7)] "apple"
      (.vint 7) (.vstr "five") (by rfl) (by rfl)
    exact ⟨this.1, this.2⟩⟩

/-- C10: a boolean passes `isinstance(qty, int)` (Python's `bool` is a
subclass of `int`), so for an item stored with quantity `n`,
`add_item(item, True)` records no validation warning and leaves the item
mapped to `n + 1`. -/
theorem C10_add_bool_qty (stock : StockTable) (s : String) (n : Int)
    (h : dget stock s = some (.vint n)) :
    add_item stock (.vstr s) (.vbool true) =
      .ok (dset stock s (.vint (n + 1)),
        [.addedInfo (.vbool true) (.vstr s)]) ∧
    (LogEvent.addedInfo (.vbool true) (.vstr s)).level ≠ .warning ∧
    dget (dset stock s (.vint (n + 1))) s = some (.vint (n + 1)) := by
  refine ⟨?_, by simp [LogEvent.level], dget_dset_self stock s _⟩
  simp [add_item, PyVal.qtyInt, h, pyAddInt, PyVal.num?]

theorem C10_add_bool_qty_witness :
    dget [("a", PyVal.vint 4)] "a" = some (.vint 4) ∧
    add_item [("a", PyVal.vint 4)] (.vstr "a") (.vbool true) =
      .ok ([("a", PyVal.vint 5)],
        [.addedInfo (.vbool true) (.vstr "a")]) ∧
    (LogEvent.addedInfo (.vbool true) (.vstr "a")).level ≠ .warning :=
  ⟨by rfl, by
    simpa [dset] using
      (C10_add_bool_qty [("a", PyVal.vint 4)] "a" 4 (by rfl)).1,
    (C10_add_bool_qty [("a", PyVal.vint 4)] "a" 4 (by rfl)).2.1⟩
